import Mathlib

/-!
Verification of the telemetry-ingestion core of `src/sensor_visualizer.py`
(SensorVisualization).

Shallow embedding conventions:
* Python floats are modelled as exact rationals (`ℚ`); `math.sqrt` is
  modelled as `Real.sqrt` on the rational values cast into `ℝ`.
* Python lists / numpy arrays are modelled as `List ℚ`.
* Python exceptions are modelled with `Except`/`Option`: `float()` either
  returns a value or fails, and each `try/except` of the source is an
  explicit match on that result.
* `np.roll(a, -s)` (a left rotation by `s`) is `rollLeft`.
-/

namespace SensorVis

/-! ## TimeSeriesTab (`TimeSeriesTab.__init__` lines 391-401, `addSample` lines 403-423)

`self._window = 800`; per sensor a dict of three zero arrays `x`,`y`,`z`;
one shared write index `self._index`.  `addSample` writes the three axis
values of the sample at `self._index % self._window` into the appended
sensor's buffers, increments the shared index, and recomputes that
sensor's plotted view as `np.roll(buf, -shift)` with
`shift = (idx + 1) % self._window`.  The state below additionally keeps,
per sensor, the `shift` used at that sensor's last append (`shifts`,
initially 0): since a sensor's buffers change only on its own appends,
`rollLeft bufs shift` is exactly the curve data last passed to
`setData` for that sensor, i.e. the rotated view produced on append. -/

/-- `self._window = 800` (source line 391). -/
def WINDOW : ℕ := 800

/-- The three per-axis ring buffers of one sensor
(`{'x': np.zeros(W), 'y': np.zeros(W), 'z': np.zeros(W)}`, lines 392-399). -/
structure SensorBufs where
  x : List ℚ
  y : List ℚ
  z : List ℚ
deriving DecidableEq

/-- The fields of a `SensorSample` that `addSample` reads
(`sample.x_mm`, `sample.y_mm`, `sample.z_mm`). -/
structure SampleXYZ where
  x_mm : ℚ
  y_mm : ℚ
  z_mm : ℚ
deriving DecidableEq

/-- A sensor's buffers at construction time: three zero arrays of length `W`. -/
def zeroBufs : SensorBufs :=
  ⟨List.replicate WINDOW 0, List.replicate WINDOW 0, List.replicate WINDOW 0⟩

/-- State of `TimeSeriesTab`: five per-sensor buffer triples, the per-sensor
rotation of the last produced view, and the shared write index. -/
structure TSState where
  buffers : List SensorBufs
  shifts : List ℕ
  index : ℕ
deriving DecidableEq

/-- `TimeSeriesTab.__init__` (lines 391-401): five zeroed buffer triples,
shared index 0. -/
def initTS : TSState :=
  ⟨List.replicate 5 zeroBufs, List.replicate 5 0, 0⟩

/-- `np.roll(a, -s)`: rotate the list left by `s` positions. -/
def rollLeft (l : List ℚ) (s : ℕ) : List ℚ :=
  l.drop s ++ l.take s

/-- `TimeSeriesTab.addSample` (lines 403-423).  The Python
`finger_index` is an `int`, modelled as `ℤ`; indices outside `[0,5)`
return without touching any state (lines 405-406). -/
def addSample (st : TSState) (finger_index : ℤ) (sample : SampleXYZ) : TSState :=
  if 0 ≤ finger_index ∧ finger_index < 5 then
    let fi := finger_index.toNat
    let buf := st.buffers.getD fi zeroBufs
    let idx := st.index % WINDOW
    let buf' : SensorBufs :=
      ⟨buf.x.set idx sample.x_mm, buf.y.set idx sample.y_mm, buf.z.set idx sample.z_mm⟩
    let shift := (idx + 1) % WINDOW
    { buffers := st.buffers.set fi buf'
      shifts := st.shifts.set fi shift
      index := st.index + 1 }
  else st

/-- The x-axis curve data of sensor `fi` as last produced by `addSample`
(`plot_x = np.roll(buf['x'], -shift)`, line 416). -/
def readOrderedX (st : TSState) (fi : ℕ) : List ℚ :=
  rollLeft (st.buffers.getD fi zeroBufs).x (st.shifts.getD fi 0)

/-- y-axis analogue of `readOrderedX` (line 417). -/
def readOrderedY (st : TSState) (fi : ℕ) : List ℚ :=
  rollLeft (st.buffers.getD fi zeroBufs).y (st.shifts.getD fi 0)

/-- z-axis analogue of `readOrderedX` (line 418). -/
def readOrderedZ (st : TSState) (fi : ℕ) : List ℚ :=
  rollLeft (st.buffers.getD fi zeroBufs).z (st.shifts.getD fi 0)

/-- Run a sequence of `addSample` calls from the freshly constructed state. -/
def runOps (ops : List (ℤ × SampleXYZ)) : TSState :=
  ops.foldl (fun st p => addSample st p.1 p.2) initTS

/-- Run a sequence of `addSample` calls that all target one sensor. -/
def appendAll (f : ℤ) (vs : List SampleXYZ) : TSState :=
  vs.foldl (fun st v => addSample st f v) initTS

/-- The chronological read-out the specification describes: exactly `W`
values, zero-filled before the first write, oldest retained value at
index 0 and the newest at index `W-1`. -/
def chronoPad (vals : List ℚ) : List ℚ :=
  List.replicate (WINDOW - vals.length) 0 ++ vals.drop (vals.length - WINDOW)

/-- The values appended for sensor `f`, in chronological order of its
appends, as extracted from an interleaved operation sequence. -/
def xValsFor (f : ℤ) (ops : List (ℤ × SampleXYZ)) : List ℚ :=
  (ops.filter (fun p => p.1 == f)).map (fun p => p.2.x_mm)

/-- Well-formedness: every sensor's axis buffers keep exactly `W` cells. -/
def bufWF (b : SensorBufs) : Prop :=
  b.x.length = WINDOW ∧ b.y.length = WINDOW ∧ b.z.length = WINDOW

/-- C1 counterexample input: append to sensor 0, then sensor 1, then
sensor 0 again.  The shared write cursor makes sensor 0's second value
land in cell 2 while cell 1 (never written for sensor 0) stays zero, so
the rotated view shows `…, 1, 0, 2` instead of the chronological
`…, 0, 1, 2`. -/
def ceOps : List (ℤ × SampleXYZ) := [(0, ⟨1,0,0⟩), (1, ⟨5,0,0⟩), (0, ⟨2,0,0⟩)]

def c2vs : List SampleXYZ := List.replicate WINDOW ⟨1,2,3⟩

/-! ## The line parser (`SerialWorker._parse_line_multi`, lines 105-173)

Strings are processed through their character lists.  Python's `float()`
is modelled by `pyFloat`, which accepts the decimal-numeral fragment
(optional sign, digits with an optional decimal point, an optional
exponent); Python's special spellings (`inf`, `nan`, underscore digit
separators, non-ASCII digits) are outside the model, as are lines whose
segments contain embedded newline characters (the `$` of the segment
regex is modelled as end-of-string).  A `float()` call that fails raises
`ValueError`, modelled as `none`; each `try/except` of the source is the
surrounding `match`. -/

/-- Python's `\s` (ASCII range), as used by `str.strip` and the regexes. -/
def pyIsSpace (c : Char) : Bool :=
  c = ' ' || c = '\t' || c = '\n' || c = '\r' || c = '\x0b' || c = '\x0c'

/-- Drop leading whitespace (a `\s*` in one of the regexes). -/
def pyStripL (cs : List Char) : List Char := cs.dropWhile pyIsSpace

/-- Python `str.strip()`. -/
def pyStrip (s : String) : String :=
  String.mk (((s.toList.dropWhile pyIsSpace).reverse.dropWhile pyIsSpace).reverse)

/-- Python `str.lower()` (ASCII). -/
def pyLower (s : String) : String := String.mk (s.toList.map Char.toLower)

/-- Does `cs` start with `p` (case-sensitive)? -/
def listStartsWith : List Char → List Char → Bool
  | _, [] => true
  | [], _ :: _ => false
  | c :: cs, p :: ps => c = p && listStartsWith cs ps

/-- Does `cs` contain `needle` as a contiguous substring? -/
def listHasSub : List Char → List Char → Bool
  | [], needle => needle.isEmpty
  | c :: rest, needle => listStartsWith (c :: rest) needle || listHasSub rest needle

/-- Python `needle in hay` on strings. -/
def strContains (hay needle : String) : Bool := listHasSub hay.toList needle.toList

/-- Python `hay.startswith(p)`. -/
def strStartsWith (s p : String) : Bool := listStartsWith s.toList p.toList

/-- Python `str.split(sep)` for a character class `p`: one field per
separator occurrence, adjacent separators produce empty fields. -/
def splitChars (p : Char → Bool) : List Char → List (List Char)
  | [] => [[]]
  | c :: cs =>
    if p c then [] :: splitChars p cs
    else
      match splitChars p cs with
      | [] => [[c]]
      | t :: ts => (c :: t) :: ts

/-- String-level wrapper of `splitChars`. -/
def strSplit (s : String) (p : Char → Bool) : List String :=
  (splitChars p s.toList).map String.mk

/-- `int()` on a string of decimal digits. -/
def digitsToNat (ds : List Char) : ℕ :=
  ds.foldl (fun n c => 10 * n + (c.toNat - 48)) 0

/-- The exponent part of a float literal, after the `e`/`E`: sign and
magnitude. -/
def parseExpPart : List Char → Option (Bool × ℕ)
  | '+' :: rest =>
    if rest ≠ [] ∧ rest.all Char.isDigit then some (false, digitsToNat rest) else none
  | '-' :: rest =>
    if rest ≠ [] ∧ rest.all Char.isDigit then some (true, digitsToNat rest) else none
  | rest =>
    if rest ≠ [] ∧ rest.all Char.isDigit then some (false, digitsToNat rest) else none

/-- An unsigned float literal: digits, optional fractional part, optional
exponent; at least one digit in the mantissa.  The exact value is
assembled with `mkRat` from numerator and power-of-ten denominator. -/
def parseMant (cs : List Char) : Option ℚ :=
  let ip := cs.takeWhile Char.isDigit
  let r1 := cs.dropWhile Char.isDigit
  let fp := match r1 with | '.' :: rest => rest.takeWhile Char.isDigit | _ => []
  let r2 := match r1 with | '.' :: rest => rest.dropWhile Char.isDigit | _ => r1
  if ip = [] ∧ fp = [] then none
  else
    let k := fp.length
    let mantNum := digitsToNat ip * 10 ^ k + digitsToNat fp
    match r2 with
    | [] => some (mkRat mantNum (10 ^ k))
    | 'e' :: rest =>
      (parseExpPart rest).map (fun e =>
        if e.1 then mkRat mantNum (10 ^ k * 10 ^ e.2)
        else mkRat (mantNum * 10 ^ e.2) (10 ^ k))
    | 'E' :: rest =>
      (parseExpPart rest).map (fun e =>
        if e.1 then mkRat mantNum (10 ^ k * 10 ^ e.2)
        else mkRat (mantNum * 10 ^ e.2) (10 ^ k))
    | _ => none

/-- Model of Python `float(s)` (decimal-numeral fragment, exact value):
`none` models `float` raising `ValueError`. -/
def pyFloat (s : String) : Option ℚ :=
  match ((s.toList.dropWhile pyIsSpace).reverse.dropWhile pyIsSpace).reverse with
  | '+' :: cs => parseMant cs
  | '-' :: cs => (parseMant cs).map (fun q => -q)
  | cs => parseMant cs

/-- A parsed update before force derivation: the parsed `x`,`y`,`z` and,
when a 4th field was present and parsed, its literal force value
(`none` means the force is to be derived as the Euclidean norm). -/
structure RawSample where
  x : ℚ
  y : ℚ
  z : ℚ
  force : Option ℚ
deriving DecidableEq

/-- `[p.strip() for p in s.split(',') if p.strip()]` (lines 137 and 148). -/
def splitParts (s : String) : List String :=
  ((strSplit s (· = ',')).map pyStrip).filter (fun p => !p.isEmpty)

/-- Header test (line 119): `'x,y,z' in low or low.startswith('x,')`. -/
def isHeaderLine (line : String) : Bool :=
  strContains (pyLower line) "x,y,z" || strStartsWith (pyLower line) "x,"

/-- Labeled-format test (line 123): `'sensor' in low`. -/
def hasSensorToken (line : String) : Bool :=
  strContains (pyLower line) "sensor"

/-- Case-insensitively consume `ps` from the head of `cs`, returning the
remainder. -/
def ciAfter : List Char → List Char → Option (List Char)
  | cs, [] => some cs
  | [], _ :: _ => none
  | c :: cs, p :: ps => if c.toLower = p then ciAfter cs ps else none

/-- `re.match(r'^\s*sensor\s*(\d+)\s*:\s*(.*)$', seg, re.IGNORECASE)`
(line 130): the captured integer and the `(.*)` capture. -/
def matchSensorSeg (seg : String) : Option (ℕ × String) :=
  match ciAfter (pyStripL seg.toList) ['s','e','n','s','o','r'] with
  | none => none
  | some r1 =>
    let ds := (pyStripL r1).takeWhile Char.isDigit
    let r2 := (pyStripL r1).dropWhile Char.isDigit
    if ds = [] then none
    else
      match pyStripL r2 with
      | ':' :: r3 => some (digitsToNat ds, String.mk (pyStripL r3))
      | _ => none

/-- The shared `x,y,z[,force]` payload parse of the labeled segment
(lines 139-144) and of the single-sensor fallback (lines 167-169): the
first three tokens as coordinates, the optional 4th as literal force.
`none` models the `float()` exception reaching the enclosing `except`:
no update survives from the payload. -/
def parsePayloadW (fl : String → Option ℚ) (parts : List String) : Option RawSample :=
  match fl (parts.getD 0 ""), fl (parts.getD 1 ""), fl (parts.getD 2 "") with
  | some x, some y, some z =>
    if 4 ≤ parts.length then
      match fl (parts.getD 3 "") with
      | some f => some ⟨x, y, z, some f⟩
      | none => none
    else some ⟨x, y, z, none⟩
  | _, _, _ => none

/-- One segment of the labeled format (lines 126-144), parametrized by the
float parser `fl`.  A failed `float()` aborts the whole segment
(`except Exception: pass`). -/
def labeledSegUpdW (fl : String → Option ℚ) (seg0 : String) : List (ℕ × RawSample) :=
  let seg := pyStrip seg0
  if seg.isEmpty then []
  else
    match matchSensorSeg seg with
    | none => []
    | some (n, payloadRaw) =>
      let idx := max 1 (min 5 n) - 1
      let payload0 := pyStrip payloadRaw
      let payload :=
        if payload0.toList.getLast? = some ',' then String.mk payload0.toList.dropLast
        else payload0
      let parts := splitParts payload
      if 3 ≤ parts.length then
        match parsePayloadW fl parts with
        | some smp => [(idx, smp)]
        | none => []
      else []

/-- The labeled branch (lines 123-145): split the line on `;`/`|`
(`re.split(r'[;|]', line)`) and concatenate each segment's updates. -/
def labeledParseW (fl : String → Option ℚ) (line : String) : List (ℕ × RawSample) :=
  ((strSplit line (fun c => c = ';' || c = '|')).map (labeledSegUpdW fl)).flatten

/-- One fixed-width group of the flat-CSV walk (lines 153-162): three
coordinates and, in the 20-token shape, the literal force.  `none` models
the `except` that breaks the walk.  Out-of-range accesses read the
default `""`, which fails to parse — just as an `IndexError` in the
source would be caught by the same `except`. -/
def flatGroupW (fl : String → Option ℚ) (parts : List String) (is20 : Bool)
    (cursor : ℕ) : Option RawSample :=
  match fl (parts.getD cursor ""), fl (parts.getD (cursor+1) ""), fl (parts.getD (cursor+2) "") with
  | some x, some y, some z =>
    if is20 then
      match fl (parts.getD (cursor+3) "") with
      | some f => some ⟨x, y, z, some f⟩
      | none => none
    else some ⟨x, y, z, none⟩
  | _, _, _ => none

/-- The walk `for sensor_idx in range(5)` of the flat-CSV branch
(lines 151-162): collect a group per sensor index, stopping at the first
failing group and returning what was already collected. -/
def flatWalkW (fl : String → Option ℚ) (parts : List String) (is20 : Bool) :
    List ℕ → ℕ → List (ℕ × RawSample)
  | [], _ => []
  | i :: rest, cursor =>
    match flatGroupW fl parts is20 cursor with
    | some smp => (i, smp) :: flatWalkW fl parts is20 rest (cursor + (if is20 then 4 else 3))
    | none => []

/-- The single-sensor fallback branch (lines 165-173): first three tokens
as coordinates, optional fourth as force; any parse failure yields `[]`
(`except Exception: return []`). -/
def singleFallbackW (fl : String → Option ℚ) (parts : List String) : List (ℕ × RawSample) :=
  if 3 ≤ parts.length then
    match parsePayloadW fl parts with
    | some smp => [(0, smp)]
    | none => []
  else []

/-- `SerialWorker._parse_line_multi` (lines 105-173) up to force
derivation, parametrized by the float parser so that the all-tokens-parse
oracle of C4 reuses the same definition. -/
def rawParseWith (fl : String → Option ℚ) (text : String) : List (ℕ × RawSample) :=
  let line := pyStrip text
  if line.isEmpty then []
  else if isHeaderLine line then []
  else if hasSensorToken line then labeledParseW fl line
  else
    let parts := splitParts line
    if parts.length = 15 ∨ parts.length = 20 then
      flatWalkW fl parts (parts.length == 20) (List.range 5) 0
    else singleFallbackW fl parts

/-- The parser with the real float semantics. -/
def rawParse : String → List (ℕ × RawSample) := rawParseWith pyFloat

/-! ## Force derivation and the full parser result

`SensorSample` (dataclass, lines 23-28) has field order
`x_mm, y_mm, force_g, z_mm`; every constructor call in the parser is
positional `SensorSample(x, y, force, z)`.  Python floats are idealized
as reals; `math.sqrt` is `Real.sqrt`. -/

/-- The `SensorSample` dataclass (lines 23-28), values idealized in `ℝ`. -/
structure SensorSample where
  x_mm : ℝ
  y_mm : ℝ
  force_g : ℝ
  z_mm : ℝ

/-- `SensorSample(x, y, force, z)` with the derived force
`math.sqrt(x*x + y*y + z*z)` (lines 141, 159, 169). -/
noncomputable def derivedSample (x y z : ℚ) : SensorSample :=
  ⟨x, y, Real.sqrt ((x:ℝ) * x + (y:ℝ) * y + (z:ℝ) * z), z⟩

/-- `SensorSample(x, y, force, z)` with a literal force field. -/
noncomputable def litSample (x y z f : ℚ) : SensorSample :=
  ⟨x, y, f, z⟩

/-- Interpret a `RawSample`: a parsed 4th field is the literal force,
otherwise the force is the Euclidean norm of the coordinates. -/
noncomputable def toSample (r : RawSample) : SensorSample :=
  match r.force with
  | some f => litSample r.x r.y r.z f
  | none => derivedSample r.x r.y r.z

/-- `SerialWorker._parse_line_multi` (lines 105-173). -/
noncomputable def parse_line_multi (text : String) : List (ℕ × SensorSample) :=
  (rawParse text).map (fun p => (p.1, toSample p.2))

/-- The comma tokens of the parsed line (`parts`, line 148). -/
def lineParts (text : String) : List String := splitParts (pyStrip text)

/-- The `j`-th comma token of the line, parsed (0 on failure; only used
under a success hypothesis). -/
def tokQ (text : String) (j : ℕ) : ℚ := (pyFloat ((lineParts text).getD j "")).getD 0

/-- The 15-token test vector of the specification. -/
def csv15 : String := "1,2,3,4,5,6,7,8,9,10,11,12,13,14,15"

/-- A 20-token flat line with explicit 4th values. -/
def csv20 : String := "1,2,3,4,5,6,7,8,9,10,11,12,13,14,15,16,17,18,19,20"

/-- Whether the flat branch of this line takes the 4-wide shape. -/
def lineIs20 (text : String) : Bool := (lineParts text).length == 20

/-- The walk stride of the flat branch. -/
def lineGS (text : String) : ℕ := if lineIs20 text then 4 else 3

/-- The flat-CSV group for sensor `m` of the line. -/
def lineGroup (text : String) (m : ℕ) : Option RawSample :=
  flatGroupW pyFloat (lineParts text) (lineIs20 text) (lineGS text * m)

/-- C7 witness input: the third group (`sensor_idx = 2`) fails on token
`a`; the two earlier groups parse. -/
def csvBad : String := "1,2,3,4,5,6,a,8,9,10,11,12,13,14,15"

/-- The specification's single-sensor example line. -/
def fb3 : String := "10.5,-3.2,0.0"

/-- A fallback line whose third token fails to parse. -/
def fbBad : String := "1,2,a"

/-! ## Exception-level model of the parser (for the no-raise property)

`parse_line_multi_E` is `_parse_line_multi` with Python's exception flow
made explicit: `float()` throws `ValueError`, and each `try`/`except` of
the source is a `pyTry`.  The no-raise theorem below shows the result is
always `Except.ok` — exceptions never escape the parser — and equals the
`Option`-level model. -/

/-- A computation that may raise a Python exception. -/
abbrev PyResult (α : Type) := Except String α

/-- `try: body / except Exception: handler`. -/
def pyTry {α : Type} (body : PyResult α) (handler : PyResult α) : PyResult α :=
  match body with
  | .ok a => .ok a
  | .error _ => handler

/-- `float(s)` raising `ValueError` on failure. -/
def pyFloatE (s : String) : PyResult ℚ :=
  match pyFloat s with
  | some v => .ok v
  | none => .error "ValueError"

/-- The shared payload parse with explicit exception flow: the `pyTry`
is the enclosing `try` of lines 139-144 / 167-172, and a raised
`ValueError` reaching the `except` leaves no sample. -/
def parsePayloadE (parts : List String) : PyResult (Option RawSample) :=
  pyTry
    (do
      let x ← pyFloatE (parts.getD 0 "")
      let y ← pyFloatE (parts.getD 1 "")
      let z ← pyFloatE (parts.getD 2 "")
      let force ←
        if 4 ≤ parts.length then do
          let f ← pyFloatE (parts.getD 3 "")
          pure (some f)
        else pure none
      pure (some (⟨x, y, z, force⟩ : RawSample)))
    (.ok none)

/-- One labeled segment with explicit exception flow (lines 126-144). -/
def labeledSegUpdE (seg0 : String) : PyResult (List (ℕ × RawSample)) :=
  let seg := pyStrip seg0
  if seg.isEmpty then .ok []
  else
    match matchSensorSeg seg with
    | none => .ok []
    | some (n, payloadRaw) =>
      let idx := max 1 (min 5 n) - 1
      let payload0 := pyStrip payloadRaw
      let payload :=
        if payload0.toList.getLast? = some ',' then String.mk payload0.toList.dropLast
        else payload0
      let parts := splitParts payload
      if 3 ≤ parts.length then
        (parsePayloadE parts).map
          (fun r => match r with | some smp => [(idx, smp)] | none => [])
      else .ok []

/-- Sequence the segment results, concatenating updates. -/
def collectE {α : Type} : List (PyResult (List α)) → PyResult (List α)
  | [] => .ok []
  | r :: rs => do
    let u ← r
    let rest ← collectE rs
    pure (u ++ rest)

/-- The labeled branch with explicit exception flow (lines 123-145). -/
def labeledParseE (line : String) : PyResult (List (ℕ × RawSample)) :=
  collectE ((strSplit line (fun c => c = ';' || c = '|')).map labeledSegUpdE)

/-- One flat-CSV group with explicit exception flow (lines 153-160). -/
def flatGroupE (parts : List String) (is20 : Bool) (cursor : ℕ) : PyResult RawSample := do
  let x ← pyFloatE (parts.getD cursor "")
  let y ← pyFloatE (parts.getD (cursor+1) "")
  let z ← pyFloatE (parts.getD (cursor+2) "")
  if is20 then do
    let f ← pyFloatE (parts.getD (cursor+3) "")
    pure ⟨x, y, z, some f⟩
  else pure ⟨x, y, z, none⟩

/-- The flat-CSV walk with explicit exception flow: the `try` covers one
group, the `except` is the `break` (lines 151-162). -/
def flatWalkE (parts : List String) (is20 : Bool) :
    List ℕ → ℕ → PyResult (List (ℕ × RawSample))
  | [], _ => .ok []
  | i :: rest, cursor =>
    match pyTry ((flatGroupE parts is20 cursor).map some) (.ok none) with
    | .ok (some smp) =>
      (flatWalkE parts is20 rest (cursor + (if is20 then 4 else 3))).map
        (fun tail => (i, smp) :: tail)
    | .ok none => .ok []
    | .error e => .error e

/-- The fallback branch with explicit exception flow (lines 165-173):
`except Exception: return []`. -/
def singleFallbackE (parts : List String) : PyResult (List (ℕ × RawSample)) :=
  if 3 ≤ parts.length then
    (parsePayloadE parts).map
      (fun r => match r with | some smp => [(0, smp)] | none => [])
  else .ok []

/-- `_parse_line_multi` with explicit exception flow. -/
def parse_line_multi_E (text : String) : PyResult (List (ℕ × RawSample)) :=
  let line := pyStrip text
  if line.isEmpty then .ok []
  else if isHeaderLine line then .ok []
  else if hasSensorToken line then labeledParseE line
  else
    let parts := splitParts line
    if parts.length = 15 ∨ parts.length = 20 then
      flatWalkE parts (parts.length == 20) (List.range 5) 0
    else singleFallbackE parts

/-- The all-tokens-parse oracle: a float parser that never fails yet
agrees with `pyFloat` wherever `pyFloat` succeeds. -/
def pyFloatTotal (t : String) : Option ℚ := some ((pyFloat t).getD 0)

/-! ## SerialWorker read loop and rate limiter (lines 59-89)

For each complete line the loop strips it, skips it when empty, parses
it, skips it when no update was produced, and otherwise consults the
rate limiter: `if now - self._last_update >= self._update_interval`
forward every update of the line and set `_last_update = now`, else drop
them all (lines 71-84).  Timestamps (`time.time()`) are modelled as
exact rationals supplied per line. -/

/-- `self._update_interval = 0.03` (line 44). -/
def UPDATE_INTERVAL : ℚ := mkRat 3 100

/-- The per-line processing of the read loop (lines 71-84), from the
current `_last_update` value (initially 0, line 43): returns the
forwarded `(timestamp, updates)` batches in emission order. -/
def workerLoop (last : ℚ) : List (ℚ × String) → List (ℚ × List (ℕ × RawSample))
  | [] => []
  | (now, raw) :: rest =>
    if (pyStrip raw).isEmpty then workerLoop last rest
    else if (rawParse (pyStrip raw)).isEmpty then workerLoop last rest
    else if now - last ≥ UPDATE_INTERVAL then
      (now, rawParse (pyStrip raw)) :: workerLoop now rest
    else workerLoop last rest

/-- Three lines at times 1, 1.01 and 2: the middle one falls inside the
30 ms window of the first and is dropped whole. -/
def rlLines : List (ℚ × String) := [(1, "1,2,3"), (mkRat 101 100, "4,5,6"), (2, "7,8,9")]

/-! ## SerialWorker.stop / _cleanup (lines 91-102)

`stop` clears `_running` and calls `_cleanup`; `_cleanup` closes the
serial handle inside `try/except: pass` when one is present and then
clears the reference (`self._serial = None`, line 102, runs in every
case).  `closeCalls` is ghost state counting `close()` invocations. -/

/-- A serial handle; `closeRaises` models a `close()` that raises. -/
structure SerialHandle where
  closeRaises : Bool
deriving DecidableEq

/-- The `SerialWorker` fields touched by `stop`/`_cleanup`, plus the
ghost close counter. -/
structure WorkerState where
  running : Bool
  serial : Option SerialHandle
  closeCalls : ℕ
deriving DecidableEq

/-- `serial.Serial.close()` (line 99), which may raise. -/
def closeSerial (h : SerialHandle) : PyResult Unit :=
  if h.closeRaises then .error "SerialException" else .ok ()

/-- `SerialWorker._cleanup` (lines 96-102) with explicit exception flow. -/
def cleanupE (s : WorkerState) : PyResult WorkerState :=
  match s.serial with
  | some h =>
    match pyTry (closeSerial h) (.ok ()) with
    | .ok _ => .ok { s with serial := none, closeCalls := s.closeCalls + 1 }
    | .error e => .error e
  | none => .ok { s with serial := none }

/-- `SerialWorker.stop` (lines 91-94): clear `_running`, then `_cleanup`. -/
def stopE (s : WorkerState) : PyResult WorkerState :=
  cleanupE { s with running := false }

/-- The state `stop` leaves behind (the `.ok` payload of `stopE`). -/
def stopPure (s : WorkerState) : WorkerState :=
  match s.serial with
  | some _ => { s with running := false, serial := none, closeCalls := s.closeCalls + 1 }
  | none => { s with running := false, serial := none }

theorem rollLeft_length (l : List ℚ) (s : ℕ) : (rollLeft l s).length = l.length := by
  simp [rollLeft]
  omega

theorem rollLeft_zero (l : List ℚ) : rollLeft l 0 = l := by
  simp [rollLeft]

/-- One `addSample` write viewed through the rotation: setting the cell at
`i = index % W` and rotating by `(i+1) % W` drops the oldest entry of the
previous view and appends the new value at the end. -/
theorem roll_set_step (l : List ℚ) (a : ℚ) (i : ℕ) (hi : i < l.length) :
    rollLeft (l.set i a) ((i + 1) % l.length) = (rollLeft l i).drop 1 ++ [a] := by
  have hset : l.set i a = l.take i ++ a :: l.drop (i + 1) := by
    rw [List.set_eq_take_append_cons_drop, if_pos hi]
  have htaki : (l.take i).length = i := by simp; omega
  rcases Nat.lt_or_ge (i + 1) l.length with hc | hc
  · have hs : (i + 1) % l.length = i + 1 := Nat.mod_eq_of_lt hc
    have hdrop : (l.set i a).drop (i + 1) = l.drop (i + 1) := by
      rw [hset, List.drop_append_eq_append_drop, htaki]
      rw [List.drop_eq_nil_of_le (by omega : (l.take i).length ≤ i + 1)]
      simp
    have htake : (l.set i a).take (i + 1) = l.take i ++ [a] := by
      rw [hset, List.take_append_eq_append_take, htaki]
      rw [List.take_take]
      have : (i + 1) ⊓ i = i := by omega
      rw [this]
      have : i + 1 - i = 1 := by omega
      rw [this]
      simp
    rw [hs]
    show (l.set i a).drop (i + 1) ++ (l.set i a).take (i + 1) = _
    rw [hdrop, htake]
    show _ = (l.drop i ++ l.take i).drop 1 ++ [a]
    rw [List.drop_append_eq_append_drop]
    have h1 : (l.drop i).drop 1 = l.drop (i + 1) := by
      rw [List.drop_drop]
    have h2 : 1 - (l.drop i).length = 0 := by simp; omega
    rw [h1, h2, List.drop_zero, List.append_assoc]
  · have heq : i + 1 = l.length := by omega
    have hs : (i + 1) % l.length = 0 := by rw [heq, Nat.mod_self]
    rw [hs, rollLeft_zero, hset]
    have : l.drop (i + 1) = [] := List.drop_eq_nil_of_le (by omega)
    rw [this]
    show _ = (l.drop i ++ l.take i).drop 1 ++ [a]
    rw [List.drop_append_eq_append_drop, List.drop_drop]
    have h1 : l.drop (i + 1) = [] := List.drop_eq_nil_of_le (by omega)
    have h2 : 1 - (l.drop i).length = 0 := by simp; omega
    rw [h1, h2, List.drop_zero]
    simp

theorem chronoPad_nil : chronoPad [] = List.replicate WINDOW 0 := by
  simp [chronoPad]

theorem chronoPad_length (vals : List ℚ) : (chronoPad vals).length = WINDOW := by
  simp [chronoPad]
  omega

/-- `chronoPad` satisfies the same one-step recurrence as the rotated view. -/
theorem chronoPad_snoc (xs : List ℚ) (a : ℚ) :
    chronoPad (xs ++ [a]) = (chronoPad xs).drop 1 ++ [a] := by
  have hW : 0 < WINDOW := by norm_num [WINDOW]
  rcases Nat.lt_or_ge xs.length WINDOW with h | h
  · have h1 : xs.length + 1 - WINDOW = 0 := by omega
    have h2 : xs.length - WINDOW = 0 := by omega
    simp only [chronoPad, List.length_append, List.length_singleton, h1, h2,
      List.drop_zero]
    rw [List.drop_append_eq_append_drop]
    have h3 : (List.replicate (WINDOW - xs.length) (0:ℚ)).drop 1
        = List.replicate (WINDOW - (xs.length + 1)) 0 := by
      rw [List.drop_replicate]
      congr 1
    have h4 : 1 - (List.replicate (WINDOW - xs.length) (0:ℚ)).length = 0 := by
      simp
      omega
    rw [h3, h4, List.drop_zero, List.append_assoc]
  · have h1 : WINDOW - xs.length = 0 := by omega
    have h2 : WINDOW - (xs.length + 1) = 0 := by omega
    simp only [chronoPad, List.length_append, List.length_singleton, h1, h2,
      List.replicate_zero, List.nil_append]
    rw [List.drop_append_eq_append_drop, List.drop_drop]
    have h3 : xs.length + 1 - WINDOW - xs.length = 0 := by omega
    have h5 : xs.length + 1 - WINDOW = xs.length - WINDOW + 1 := by omega
    rw [h3, List.drop_zero, h5]

theorem window_pos : 0 < WINDOW := by norm_num [WINDOW]

theorem mod_succ_window (n : ℕ) : (n % WINDOW + 1) % WINDOW = (n + 1) % WINDOW := by
  conv_rhs => rw [Nat.add_mod]
  norm_num [WINDOW]

/-- State invariant after any number of appends that all target the single
sensor `f`: the shared index counts the appends, only `f`'s buffers moved,
and each axis buffer seen through its last-append rotation is exactly the
chronologically padded value list. -/
theorem appendAll_invariant (f : ℤ) (hf0 : 0 ≤ f) (hf5 : f < 5) (vs : List SampleXYZ) :
    (appendAll f vs).index = vs.length ∧
    (appendAll f vs).shifts = (List.replicate 5 0).set f.toNat (vs.length % WINDOW) ∧
    ∃ bx bY bz,
      (appendAll f vs).buffers = (List.replicate 5 zeroBufs).set f.toNat ⟨bx, bY, bz⟩ ∧
      bx.length = WINDOW ∧ bY.length = WINDOW ∧ bz.length = WINDOW ∧
      rollLeft bx (vs.length % WINDOW) = chronoPad (vs.map SampleXYZ.x_mm) ∧
      rollLeft bY (vs.length % WINDOW) = chronoPad (vs.map SampleXYZ.y_mm) ∧
      rollLeft bz (vs.length % WINDOW) = chronoPad (vs.map SampleXYZ.z_mm) := by
  have hfi : f.toNat < 5 := (Int.toNat_lt hf0).mpr (by exact_mod_cast hf5)
  induction vs using List.reverseRecOn with
  | nil =>
    refine ⟨rfl, ?_, List.replicate WINDOW 0, List.replicate WINDOW 0,
      List.replicate WINDOW 0, ?_, by simp, by simp, by simp, ?_, ?_, ?_⟩
    · show List.replicate 5 0 = (List.replicate 5 0).set f.toNat (List.length [] % WINDOW)
      simp only [List.length_nil, Nat.zero_mod]
      rw [List.set_replicate_self]
    · show List.replicate 5 zeroBufs = _
      have hz : (⟨List.replicate WINDOW 0, List.replicate WINDOW 0,
          List.replicate WINDOW 0⟩ : SensorBufs) = zeroBufs := rfl
      rw [hz, List.set_replicate_self]
    all_goals
      show rollLeft (List.replicate WINDOW 0) (List.length [] % WINDOW) = _
      simp only [List.length_nil, Nat.zero_mod, List.map_nil]
      rw [rollLeft_zero, chronoPad_nil]
  | append_singleton vs v ih =>
    obtain ⟨hidx, hsh, bx, bY, bz, hbuf, hlx, hly, hlz, hrx, hry, hrz⟩ := ih
    have hstep : appendAll f (vs ++ [v]) = addSample (appendAll f vs) f v := by
      simp [appendAll, List.foldl_append]
    set st := appendAll f vs with hst
    have hgd : st.buffers.getD f.toNat zeroBufs = ⟨bx, bY, bz⟩ := by
      rw [hbuf, List.getD_eq_getElem?_getD, List.getElem?_set_self (by simp [hfi])]
      rfl
    have hmodlt : vs.length % WINDOW < WINDOW := Nat.mod_lt _ window_pos
    rw [hstep]
    simp only [addSample, if_pos (show (0:ℤ) ≤ f ∧ f < 5 from ⟨hf0, hf5⟩), hgd, hidx]
    refine ⟨by simp, ?_, bx.set (vs.length % WINDOW) v.x_mm,
      bY.set (vs.length % WINDOW) v.y_mm, bz.set (vs.length % WINDOW) v.z_mm,
      ?_, by simp [hlx], by simp [hly], by simp [hlz], ?_, ?_, ?_⟩
    · rw [hsh, List.set_set, mod_succ_window]
      simp
    · rw [hbuf, List.set_set]
    · have hiW : vs.length % WINDOW < bx.length := by rw [hlx]; exact hmodlt
      have hr := roll_set_step bx v.x_mm (vs.length % WINDOW) hiW
      rw [hlx] at hr
      show rollLeft (bx.set (vs.length % WINDOW) v.x_mm) ((vs ++ [v]).length % WINDOW) = _
      have hlen : (vs ++ [v]).length = vs.length + 1 := by simp
      rw [hlen, ← mod_succ_window, hr, hrx, ← chronoPad_snoc]
      simp
    · have hiW : vs.length % WINDOW < bY.length := by rw [hly]; exact hmodlt
      have hr := roll_set_step bY v.y_mm (vs.length % WINDOW) hiW
      rw [hly] at hr
      show rollLeft (bY.set (vs.length % WINDOW) v.y_mm) ((vs ++ [v]).length % WINDOW) = _
      have hlen : (vs ++ [v]).length = vs.length + 1 := by simp
      rw [hlen, ← mod_succ_window, hr, hry, ← chronoPad_snoc]
      simp
    · have hiW : vs.length % WINDOW < bz.length := by rw [hlz]; exact hmodlt
      have hr := roll_set_step bz v.z_mm (vs.length % WINDOW) hiW
      rw [hlz] at hr
      show rollLeft (bz.set (vs.length % WINDOW) v.z_mm) ((vs ++ [v]).length % WINDOW) = _
      have hlen : (vs ++ [v]).length = vs.length + 1 := by simp
      rw [hlen, ← mod_succ_window, hr, hrz, ← chronoPad_snoc]
      simp

/-- Read-out of the single-sensor run, all three axes. -/
theorem appendAll_readOrdered (f : ℤ) (hf0 : 0 ≤ f) (hf5 : f < 5) (vs : List SampleXYZ) :
    readOrderedX (appendAll f vs) f.toNat = chronoPad (vs.map SampleXYZ.x_mm) ∧
    readOrderedY (appendAll f vs) f.toNat = chronoPad (vs.map SampleXYZ.y_mm) ∧
    readOrderedZ (appendAll f vs) f.toNat = chronoPad (vs.map SampleXYZ.z_mm) := by
  have hfi : f.toNat < 5 := (Int.toNat_lt hf0).mpr (by exact_mod_cast hf5)
  obtain ⟨hidx, hsh, bx, bY, bz, hbuf, hlx, hly, hlz, hrx, hry, hrz⟩ :=
    appendAll_invariant f hf0 hf5 vs
  have hgd : (appendAll f vs).buffers.getD f.toNat zeroBufs = ⟨bx, bY, bz⟩ := by
    rw [hbuf, List.getD_eq_getElem?_getD, List.getElem?_set_self (by simp [hfi])]
    rfl
  have hgs : (appendAll f vs).shifts.getD f.toNat 0 = vs.length % WINDOW := by
    rw [hsh, List.getD_eq_getElem?_getD, List.getElem?_set_self (by simp [hfi])]
    rfl
  refine ⟨?_, ?_, ?_⟩
  · show rollLeft ((appendAll f vs).buffers.getD f.toNat zeroBufs).x
      ((appendAll f vs).shifts.getD f.toNat 0) = _
    rw [hgd, hgs]
    exact hrx
  · show rollLeft ((appendAll f vs).buffers.getD f.toNat zeroBufs).y
      ((appendAll f vs).shifts.getD f.toNat 0) = _
    rw [hgd, hgs]
    exact hry
  · show rollLeft ((appendAll f vs).buffers.getD f.toNat zeroBufs).z
      ((appendAll f vs).shifts.getD f.toNat 0) = _
    rw [hgd, hgs]
    exact hrz

theorem zeroBufs_wf : bufWF zeroBufs := by
  refine ⟨?_, ?_, ?_⟩ <;> simp [zeroBufs]

theorem getD_buffers_wf (st : TSState) (h : ∀ b ∈ st.buffers, bufWF b) (j : ℕ) :
    bufWF (st.buffers.getD j zeroBufs) := by
  rcases Nat.lt_or_ge j st.buffers.length with hlt | hge
  · exact h _ (by rw [List.getD_eq_getElem _ _ hlt]; exact List.getElem_mem hlt)
  · rw [List.getD_eq_default _ _ hge]
    exact zeroBufs_wf

theorem addSample_wf (st : TSState) (i : ℤ) (v : SampleXYZ)
    (h : ∀ b ∈ st.buffers, bufWF b) :
    ∀ b ∈ (addSample st i v).buffers, bufWF b := by
  rw [addSample]
  split
  · intro b hb
    simp only at hb
    rcases List.mem_or_eq_of_mem_set hb with h1 | h1
    · exact h b h1
    · subst h1
      have hg := getD_buffers_wf st h i.toNat
      refine ⟨?_, ?_, ?_⟩ <;> simp only [List.length_set]
      · exact hg.1
      · exact hg.2.1
      · exact hg.2.2
  · exact h

theorem runOps_wf (ops : List (ℤ × SampleXYZ)) :
    ∀ b ∈ (runOps ops).buffers, bufWF b := by
  have haux : ∀ (l : List (ℤ × SampleXYZ)) (st : TSState),
      (∀ b ∈ st.buffers, bufWF b) →
      ∀ b ∈ (l.foldl (fun st p => addSample st p.1 p.2) st).buffers, bufWF b := by
    intro l
    induction l with
    | nil => intro st h; exact h
    | cons p rest ih =>
      intro st h
      exact ih _ (addSample_wf _ _ _ h)
  refine haux ops initTS ?_
  intro b hb
  have hb' : b ∈ List.replicate 5 zeroBufs := hb
  rw [(List.mem_replicate.mp hb').2]
  exact zeroBufs_wf

theorem chronoPad_of_length (l : List ℚ) (k : ℕ) (hl : l.length = WINDOW + k) :
    chronoPad l = l.drop k := by
  have h1 : WINDOW - l.length = 0 := by omega
  have h2 : l.length - WINDOW = k := by omega
  simp [chronoPad, h1, h2]

theorem readOrdered_lengths (ops : List (ℤ × SampleXYZ)) (j : ℕ) :
    (readOrderedX (runOps ops) j).length = WINDOW ∧
    (readOrderedY (runOps ops) j).length = WINDOW ∧
    (readOrderedZ (runOps ops) j).length = WINDOW := by
  have hb := getD_buffers_wf (runOps ops) (runOps_wf ops) j
  refine ⟨?_, ?_, ?_⟩
  · show (rollLeft ((runOps ops).buffers.getD j zeroBufs).x _).length = WINDOW
    rw [rollLeft_length]
    exact hb.1
  · show (rollLeft ((runOps ops).buffers.getD j zeroBufs).y _).length = WINDOW
    rw [rollLeft_length]
    exact hb.2.1
  · show (rollLeft ((runOps ops).buffers.getD j zeroBufs).z _).length = WINDOW
    rw [rollLeft_length]
    exact hb.2.2

/-- C1 (amended): every read-out always has exactly `W = 800` values per
axis, and for append sequences that target a single sensor the read-out of
that sensor is chronological (zero-initialized padding first, oldest
retained append at the front, the newest at index `W-1`).  The claim's
stronger statement over interleaved sequences is refuted separately by a
concrete three-append counterexample. -/
theorem timeSeries_view_amended :
    (∀ (ops : List (ℤ × SampleXYZ)) (j : ℕ),
      (readOrderedX (runOps ops) j).length = WINDOW ∧
      (readOrderedY (runOps ops) j).length = WINDOW ∧
      (readOrderedZ (runOps ops) j).length = WINDOW) ∧
    (∀ (f : ℤ), 0 ≤ f → f < 5 → ∀ vs : List SampleXYZ,
      readOrderedX (appendAll f vs) f.toNat = chronoPad (vs.map SampleXYZ.x_mm) ∧
      readOrderedY (appendAll f vs) f.toNat = chronoPad (vs.map SampleXYZ.y_mm) ∧
      readOrderedZ (appendAll f vs) f.toNat = chronoPad (vs.map SampleXYZ.z_mm)) :=
  ⟨readOrdered_lengths, fun f hf0 hf5 vs => appendAll_readOrdered f hf0 hf5 vs⟩

theorem timeSeries_view_amended_witness :
    ((0:ℤ) ≤ 0 ∧ (0:ℤ) < 5) ∧
    (readOrderedX (appendAll 0 [⟨1,2,3⟩]) 0 = chronoPad ([(⟨1,2,3⟩ : SampleXYZ)].map SampleXYZ.x_mm) ∧
     readOrderedY (appendAll 0 [⟨1,2,3⟩]) 0 = chronoPad ([(⟨1,2,3⟩ : SampleXYZ)].map SampleXYZ.y_mm) ∧
     readOrderedZ (appendAll 0 [⟨1,2,3⟩]) 0 = chronoPad ([(⟨1,2,3⟩ : SampleXYZ)].map SampleXYZ.z_mm)) :=
  ⟨⟨by decide, by decide⟩, timeSeries_view_amended.2 0 (by decide) (by decide) [⟨1,2,3⟩]⟩

set_option maxRecDepth 10000 in
/-- C1 is false as stated for interleaved appends: after `ceOps` the
view of sensor 0 is not the chronologically ordered, zero-padded list of
sensor 0's appended values. -/
theorem timeSeries_interleaved_counterexample :
    readOrderedX (runOps ceOps) 0 ≠ chronoPad (xValsFor 0 ceOps) := by
  decide

/-- C2: after `W + k` appends of values `v` to a single sensor (and no
append to any other sensor), the read-out is `v[k..W+k-1]` — the oldest
`k` entries are evicted and chronological order is preserved (the case
`k = 0` is the “exactly `W` appends returns exactly `v`” half). -/
theorem timeSeries_evict_oldest (f : ℤ) (hf0 : 0 ≤ f) (hf5 : f < 5)
    (vs : List SampleXYZ) (k : ℕ) (hlen : vs.length = WINDOW + k) :
    readOrderedX (appendAll f vs) f.toNat = (vs.map SampleXYZ.x_mm).drop k ∧
    readOrderedY (appendAll f vs) f.toNat = (vs.map SampleXYZ.y_mm).drop k ∧
    readOrderedZ (appendAll f vs) f.toNat = (vs.map SampleXYZ.z_mm).drop k := by
  obtain ⟨hx, hy, hz⟩ := appendAll_readOrdered f hf0 hf5 vs
  rw [chronoPad_of_length _ k (by simp [hlen])] at hx
  rw [chronoPad_of_length _ k (by simp [hlen])] at hy
  rw [chronoPad_of_length _ k (by simp [hlen])] at hz
  exact ⟨hx, hy, hz⟩

theorem timeSeries_evict_oldest_witness :
    ((0:ℤ) ≤ 0 ∧ (0:ℤ) < 5 ∧ c2vs.length = WINDOW + 0) ∧
    (readOrderedX (appendAll 0 c2vs) 0 = (c2vs.map SampleXYZ.x_mm).drop 0 ∧
     readOrderedY (appendAll 0 c2vs) 0 = (c2vs.map SampleXYZ.y_mm).drop 0 ∧
     readOrderedZ (appendAll 0 c2vs) 0 = (c2vs.map SampleXYZ.z_mm).drop 0) :=
  ⟨⟨by decide, by decide, by simp [c2vs]⟩,
   timeSeries_evict_oldest 0 (by decide) (by decide) c2vs 0 (by simp [c2vs])⟩

/-- C10: `addSample` with a sensor index outside `[0,4]` returns without
modifying anything — no buffer cell is written, no shift stored, and the
shared write index is not advanced (source lines 405-406). -/
theorem addSample_out_of_range_noop (st : TSState) (i : ℤ) (v : SampleXYZ)
    (h : ¬ (0 ≤ i ∧ i < 5)) : addSample st i v = st := by
  rw [addSample, if_neg h]

theorem addSample_out_of_range_noop_witness :
    ¬ ((0:ℤ) ≤ 5 ∧ (5:ℤ) < 5) ∧ addSample initTS 5 ⟨1,2,3⟩ = initTS :=
  ⟨by decide, addSample_out_of_range_noop initTS 5 ⟨1,2,3⟩ (by decide)⟩

example : pyFloat "10.5" = some (mkRat 21 2) := by decide

example : pyFloat "-3.2" = some (mkRat (-16) 5) := by decide

example : pyFloat " 12 " = some 12 := by decide

example : pyFloat "1e-2" = some (mkRat 1 100) := by decide

example : pyFloat "2E3" = some 2000 := by decide

example : pyFloat ".5" = some (mkRat 1 2) := by decide

example : pyFloat "1." = some 1 := by decide

example : pyFloat "" = none := by decide

example : pyFloat "." = none := by decide

example : pyFloat "a" = none := by decide

example : pyFloat "1e" = none := by decide

example : pyFloat "+4" = some 4 := by decide

example : rawParse "x,y,z,load" = [] := by decide

example : rawParse "" = [] := by decide

example : rawParse "Sensor 0: 1,2,3" = [(0, ⟨1, 2, 3, none⟩)] := by decide

example : rawParse "Sensor 7: 1,2,3" = [(4, ⟨1, 2, 3, none⟩)] := by decide

example : rawParse "Sensor 2: 1,2,3,9; Sensor 3: 4,5,6" =
    [(1, ⟨1, 2, 3, some 9⟩), (2, ⟨4, 5, 6, none⟩)] := by decide

example : rawParse "sensor 1: a,2,3 | sensor 4: 7,8,9" = [(3, ⟨7, 8, 9, none⟩)] := by decide

example : rawParse "1,2,3,4,5,6,7,8,9,10,11,12,13,14,15" =
    [(0, ⟨1, 2, 3, none⟩), (1, ⟨4, 5, 6, none⟩), (2, ⟨7, 8, 9, none⟩),
     (3, ⟨10, 11, 12, none⟩), (4, ⟨13, 14, 15, none⟩)] := by decide

example : rawParse "1,2,3,4,5,6,7,8,9,10,11,12,13,14,15,16,17,18,19,20" =
    [(0, ⟨1, 2, 3, some 4⟩), (1, ⟨5, 6, 7, some 8⟩), (2, ⟨9, 10, 11, some 12⟩),
     (3, ⟨13, 14, 15, some 16⟩), (4, ⟨17, 18, 19, some 20⟩)] := by decide

example : rawParse "1,2,3,4,5,6,a,8,9,10,11,12,13,14,15" =
    [(0, ⟨1, 2, 3, none⟩), (1, ⟨4, 5, 6, none⟩)] := by decide

example : rawParse "10.5,-3.2,0.0" = [(0, ⟨mkRat 21 2, mkRat (-16) 5, 0, none⟩)] := by decide

example : rawParse "10.5,-3.2,0.0,7" = [(0, ⟨mkRat 21 2, mkRat (-16) 5, 0, some 7⟩)] := by decide

example : rawParse "1,2" = [] := by decide

example : rawParse "1,2,a" = [] := by decide

example : rawParse "  " = [] := by decide

theorem parse_line_multi_fst (text : String) :
    (parse_line_multi text).map Prod.fst = (rawParse text).map Prod.fst := by
  simp [parse_line_multi]

/-- Indices produced by a labeled segment are the clamped-shifted ones. -/
theorem labeledSeg_fst_lt (fl : String → Option ℚ) (seg : String)
    (u : ℕ × RawSample) (h : u ∈ labeledSegUpdW fl seg) : u.1 < 5 := by
  simp only [labeledSegUpdW] at h
  repeat' split at h
  all_goals
    first
      | exact absurd h (List.not_mem_nil _)
      | (rw [List.mem_singleton] at h; rw [h]; show 1 ⊔ 5 ⊓ _ - 1 < 5; omega)

theorem flatWalk_fst_mem (fl : String → Option ℚ) (parts : List String) (is20 : Bool) :
    ∀ (idxs : List ℕ) (cursor : ℕ) (u : ℕ × RawSample),
      u ∈ flatWalkW fl parts is20 idxs cursor → u.1 ∈ idxs := by
  intro idxs
  induction idxs with
  | nil => intro cursor u h; simp [flatWalkW] at h
  | cons i rest ih =>
    intro cursor u h
    rw [flatWalkW] at h
    split at h
    · rcases List.mem_cons.mp h with h1 | h1
      · rw [h1]; exact List.mem_cons_self i rest
      · exact List.mem_cons_of_mem i (ih _ u h1)
    · simp at h

theorem singleFallback_fst_lt (fl : String → Option ℚ) (parts : List String)
    (u : ℕ × RawSample) (h : u ∈ singleFallbackW fl parts) : u.1 < 5 := by
  rw [singleFallbackW] at h
  repeat' split at h
  all_goals
    first
      | exact absurd h (List.not_mem_nil _)
      | (rw [List.mem_singleton] at h; rw [h]; show (0:ℕ) < 5; omega)

/-- Every update the parser ever returns names a sensor index in `[0,4]`. -/
theorem rawParse_fst_lt (s : String) (u : ℕ × RawSample) (h : u ∈ rawParse s) :
    u.1 < 5 := by
  rw [rawParse] at h
  simp only [rawParseWith] at h
  split at h
  · simp at h
  · split at h
    · simp at h
    · split at h
      · rw [labeledParseW] at h
        rw [List.mem_flatten] at h
        obtain ⟨l, hl, hu⟩ := h
        rw [List.mem_map] at hl
        obtain ⟨seg, _, hseg⟩ := hl
        exact labeledSeg_fst_lt pyFloat seg u (hseg ▸ hu)
      · split at h
        · have := flatWalk_fst_mem pyFloat _ _ _ _ u h
          simpa using this
        · exact singleFallback_fst_lt pyFloat _ u h

/-- C5: in the labeled format the captured 1-based integer is clamped
into `[1,5]` and shifted to 0-based — `Sensor 0` lands on index 0 and
`Sensor 7` on index 4 — and every update the parser ever returns (any
format) has its sensor index in `[0,4]`. -/
theorem lineParser_clamp_index :
    ((parse_line_multi "Sensor 0: 1,2,3").map Prod.fst = [0] ∧
     (parse_line_multi "Sensor 7: 1,2,3").map Prod.fst = [4]) ∧
    ∀ (s : String) (u : ℕ × SensorSample), u ∈ parse_line_multi s → u.1 < 5 := by
  refine ⟨⟨?_, ?_⟩, ?_⟩
  · rw [parse_line_multi_fst]
    decide
  · rw [parse_line_multi_fst]
    decide
  · intro s u h
    rw [parse_line_multi, List.mem_map] at h
    obtain ⟨p, hp, hu⟩ := h
    have hlt := rawParse_fst_lt s p hp
    rw [← hu]
    exact hlt

theorem lineParser_clamp_index_witness :
    (0, toSample ⟨1, 2, 3, none⟩) ∈ parse_line_multi "1,2,3" ∧
    ((0 : ℕ), toSample ⟨1, 2, 3, none⟩).1 < 5 := by
  have hraw : rawParse "1,2,3" = [(0, ⟨1, 2, 3, none⟩)] := by decide
  have hmem : (0, toSample ⟨1, 2, 3, none⟩) ∈ parse_line_multi "1,2,3" := by
    rw [parse_line_multi, hraw]
    simp
  exact ⟨hmem, lineParser_clamp_index.2 "1,2,3" _ hmem⟩

theorem tok_isSome (fl : String → Option ℚ) (l : List String) (j : ℕ)
    (hj : j < l.length) (hall : ∀ p ∈ l, (fl p).isSome) :
    (fl (l.getD j "")).isSome := by
  rw [List.getD_eq_getElem _ _ hj]
  exact hall _ (List.getElem_mem hj)

theorem flatGroup_eval (fl : String → Option ℚ) (parts : List String) (is20 : Bool)
    (cursor : ℕ)
    (h0 : (fl (parts.getD cursor "")).isSome)
    (h1 : (fl (parts.getD (cursor+1) "")).isSome)
    (h2 : (fl (parts.getD (cursor+2) "")).isSome)
    (h3 : is20 = true → (fl (parts.getD (cursor+3) "")).isSome) :
    flatGroupW fl parts is20 cursor =
      some ⟨(fl (parts.getD cursor "")).getD 0, (fl (parts.getD (cursor+1) "")).getD 0,
            (fl (parts.getD (cursor+2) "")).getD 0,
            if is20 then some ((fl (parts.getD (cursor+3) "")).getD 0) else none⟩ := by
  obtain ⟨x, hx⟩ := Option.isSome_iff_exists.mp h0
  obtain ⟨y, hy⟩ := Option.isSome_iff_exists.mp h1
  obtain ⟨z, hz⟩ := Option.isSome_iff_exists.mp h2
  cases is20 with
  | false =>
    simp only [flatGroupW, hx, hy, hz]
    simp
  | true =>
    obtain ⟨f, hf⟩ := Option.isSome_iff_exists.mp (h3 rfl)
    simp only [flatGroupW, hx, hy, hz, hf]
    simp

/-- When every group of the walk parses, the walk produces one update per
index, in order, with the group at stride `gs * m`. -/
theorem flatWalk_eq_of_groups (fl : String → Option ℚ) (parts : List String)
    (is20 : Bool) :
    ∀ (idxs : List ℕ) (cursor : ℕ),
      (∀ m, m < idxs.length →
        (flatGroupW fl parts is20 (cursor + (if is20 then 4 else 3) * m)).isSome) →
      flatWalkW fl parts is20 idxs cursor =
        (List.range idxs.length).map (fun m =>
          (idxs.getD m 0,
           (flatGroupW fl parts is20
             (cursor + (if is20 then 4 else 3) * m)).getD ⟨0,0,0,none⟩)) := by
  intro idxs
  induction idxs with
  | nil => intro cursor _; simp [flatWalkW]
  | cons i rest ih =>
    intro cursor hok
    have h0 : (flatGroupW fl parts is20 cursor).isSome := by
      have := hok 0 (by simp)
      simpa using this
    obtain ⟨g, hg⟩ := Option.isSome_iff_exists.mp h0
    rw [flatWalkW, hg]
    have harith : ∀ m : ℕ, cursor + (if is20 then 4 else 3) * (m + 1) =
        cursor + (if is20 then 4 else 3) + (if is20 then 4 else 3) * m := by
      intro m
      rw [Nat.mul_succ]
      omega
    rw [ih (cursor + (if is20 then 4 else 3)) ?_]
    · rw [List.length_cons, List.range_succ_eq_map, List.map_cons, List.map_map]
      rw [List.cons_eq_cons]
      constructor
      · simp [hg]
      · apply List.map_congr_left
        intro m _
        simp only [Function.comp_apply, List.getD_cons_succ]
        rw [harith m]
    · intro m hm
      have := hok (m + 1) (by simpa using Nat.succ_lt_succ hm)
      rw [harith m] at this
      exact this

/-- A failing group truncates the walk: only the earlier sensors' updates
are returned. -/
theorem flatWalk_cut (fl : String → Option ℚ) (parts : List String) (is20 : Bool) :
    ∀ (idxs : List ℕ) (cursor j : ℕ), j < idxs.length →
      flatGroupW fl parts is20 (cursor + (if is20 then 4 else 3) * j) = none →
      (∀ m, m < j →
        (flatGroupW fl parts is20 (cursor + (if is20 then 4 else 3) * m)).isSome) →
      flatWalkW fl parts is20 idxs cursor =
        (List.range j).map (fun m =>
          (idxs.getD m 0,
           (flatGroupW fl parts is20
             (cursor + (if is20 then 4 else 3) * m)).getD ⟨0,0,0,none⟩)) := by
  intro idxs
  induction idxs with
  | nil => intro cursor j hj; simp at hj
  | cons i rest ih =>
    intro cursor j hj hfail hok
    have harith : ∀ m : ℕ, cursor + (if is20 then 4 else 3) * (m + 1) =
        cursor + (if is20 then 4 else 3) + (if is20 then 4 else 3) * m := by
      intro m
      rw [Nat.mul_succ]
      omega
    cases j with
    | zero =>
      have h0 : flatGroupW fl parts is20 cursor = none := by
        have := hfail
        simpa using this
      rw [flatWalkW, h0]
      simp
    | succ k =>
      have h0 : (flatGroupW fl parts is20 cursor).isSome := by
        have := hok 0 (Nat.succ_pos k)
        simpa using this
      obtain ⟨g, hg⟩ := Option.isSome_iff_exists.mp h0
      rw [flatWalkW, hg]
      rw [ih (cursor + (if is20 then 4 else 3)) k (by simpa using hj) ?_ ?_]
      · rw [List.range_succ_eq_map, List.map_cons, List.map_map]
        rw [List.cons_eq_cons]
        constructor
        · simp [hg]
        · apply List.map_congr_left
          intro m _
          simp only [Function.comp_apply, List.getD_cons_succ]
          rw [harith m]
      · rw [← harith k]
        exact hfail
      · intro m hm
        have := hok (m + 1) (Nat.succ_lt_succ hm)
        rw [harith m] at this
        exact this

theorem lineParts_of_empty (text : String) (h : (pyStrip text).isEmpty = true) :
    lineParts text = [] := by
  rw [lineParts, (String.isEmpty_iff _).mp h]
  decide

theorem lineParts_nonempty_strip (text : String) (h : lineParts text ≠ []) :
    (pyStrip text).isEmpty = false := by
  cases hemp : (pyStrip text).isEmpty
  · rfl
  · exact absurd (lineParts_of_empty text hemp) h

/-- Branch reduction: a non-header line without the `sensor` token and a
15- or 20-token split lands in the flat-CSV walk. -/
theorem rawParse_flat_branch (text : String)
    (hh : isHeaderLine (pyStrip text) = false)
    (hs : hasSensorToken (pyStrip text) = false)
    (hlen : (lineParts text).length = 15 ∨ (lineParts text).length = 20) :
    rawParse text =
      flatWalkW pyFloat (lineParts text) ((lineParts text).length == 20)
        (List.range 5) 0 := by
  have hne : (pyStrip text).isEmpty = false := by
    apply lineParts_nonempty_strip
    intro hnil
    rw [hnil] at hlen
    simp at hlen
  rw [rawParse]
  simp only [rawParseWith]
  rw [if_neg (by simp [hne]), if_neg (by simp [hh]), if_neg (by simp [hs]),
    if_pos (show (splitParts (pyStrip text)).length = 15 ∨ (splitParts (pyStrip text)).length = 20 from hlen)]
  rfl

/-- Branch reduction for the single-sensor fallback. -/
theorem rawParse_fallback_branch (text : String)
    (hh : isHeaderLine (pyStrip text) = false)
    (hs : hasSensorToken (pyStrip text) = false)
    (hne : (pyStrip text).isEmpty = false)
    (hlen : ¬ ((lineParts text).length = 15 ∨ (lineParts text).length = 20)) :
    rawParse text = singleFallbackW pyFloat (lineParts text) := by
  rw [rawParse]
  simp only [rawParseWith]
  rw [if_neg (by simp [hne]), if_neg (by simp [hh]), if_neg (by simp [hs]),
    if_neg (show ¬ ((splitParts (pyStrip text)).length = 15 ∨ (splitParts (pyStrip text)).length = 20) from hlen)]
  rfl

theorem flatGroup_isSome (fl : String → Option ℚ) (parts : List String) (is20 : Bool)
    (cursor : ℕ)
    (h0 : (fl (parts.getD cursor "")).isSome)
    (h1 : (fl (parts.getD (cursor+1) "")).isSome)
    (h2 : (fl (parts.getD (cursor+2) "")).isSome)
    (h3 : is20 = true → (fl (parts.getD (cursor+3) "")).isSome) :
    (flatGroupW fl parts is20 cursor).isSome := by
  rw [flatGroup_eval fl parts is20 cursor h0 h1 h2 h3]
  rfl

/-- C6: a non-header line without the `sensor` token whose comma split
yields exactly 15 (resp. 20) parseable tokens produces exactly 5 updates
for sensors 0..4 in order; with 15 tokens the force of each group is the
derived norm, with 20 tokens the 4th value of each group is taken
literally. -/
theorem lineParser_flat_csv (text : String)
    (hh : isHeaderLine (pyStrip text) = false)
    (hs : hasSensorToken (pyStrip text) = false)
    (hall : ∀ p ∈ lineParts text, (pyFloat p).isSome) :
    ((lineParts text).length = 15 →
      parse_line_multi text =
        [(0, derivedSample (tokQ text 0) (tokQ text 1) (tokQ text 2)),
         (1, derivedSample (tokQ text 3) (tokQ text 4) (tokQ text 5)),
         (2, derivedSample (tokQ text 6) (tokQ text 7) (tokQ text 8)),
         (3, derivedSample (tokQ text 9) (tokQ text 10) (tokQ text 11)),
         (4, derivedSample (tokQ text 12) (tokQ text 13) (tokQ text 14))]) ∧
    ((lineParts text).length = 20 →
      parse_line_multi text =
        [(0, litSample (tokQ text 0) (tokQ text 1) (tokQ text 2) (tokQ text 3)),
         (1, litSample (tokQ text 4) (tokQ text 5) (tokQ text 6) (tokQ text 7)),
         (2, litSample (tokQ text 8) (tokQ text 9) (tokQ text 10) (tokQ text 11)),
         (3, litSample (tokQ text 12) (tokQ text 13) (tokQ text 14) (tokQ text 15)),
         (4, litSample (tokQ text 16) (tokQ text 17) (tokQ text 18) (tokQ text 19))]) := by
  constructor
  · intro hlen
    have htok : ∀ j, j < 15 → (pyFloat ((lineParts text).getD j "")).isSome := by
      intro j hj
      exact tok_isSome pyFloat _ j (by rw [hlen]; omega) hall
    have hG : ∀ c, c + 2 < 15 → flatGroupW pyFloat (lineParts text) false c =
        some ⟨(pyFloat ((lineParts text).getD c "")).getD 0,
              (pyFloat ((lineParts text).getD (c+1) "")).getD 0,
              (pyFloat ((lineParts text).getD (c+2) "")).getD 0, none⟩ := by
      intro c hc
      rw [flatGroup_eval pyFloat (lineParts text) false c
        (htok c (by omega)) (htok (c+1) (by omega)) (htok (c+2) (by omega)) (by simp)]
      simp
    rw [parse_line_multi, rawParse_flat_branch text hh hs (Or.inl hlen)]
    have hb : ((lineParts text).length == 20) = false := by rw [hlen]; rfl
    rw [hb]
    rw [flatWalk_eq_of_groups pyFloat (lineParts text) false (List.range 5) 0 ?_]
    · simp only [List.length_range]
      rw [show List.range 5 = [0,1,2,3,4] from rfl]
      simp only [List.map_cons, List.map_nil, List.getD_cons_zero, List.getD_cons_succ]
      norm_num
      rw [hG 0 (by omega), hG 3 (by omega), hG 6 (by omega), hG 9 (by omega),
        hG 12 (by omega)]
      simp only [Option.getD_some, toSample]
      exact ⟨rfl, rfl, rfl, rfl, rfl⟩
    · intro m hm
      simp only [List.length_range] at hm
      apply flatGroup_isSome
      · exact htok _ (by simp; omega)
      · exact htok _ (by simp; omega)
      · exact htok _ (by simp; omega)
      · simp
  · intro hlen
    have htok : ∀ j, j < 20 → (pyFloat ((lineParts text).getD j "")).isSome := by
      intro j hj
      exact tok_isSome pyFloat _ j (by rw [hlen]; omega) hall
    have hG : ∀ c, c + 3 < 20 → flatGroupW pyFloat (lineParts text) true c =
        some ⟨(pyFloat ((lineParts text).getD c "")).getD 0,
              (pyFloat ((lineParts text).getD (c+1) "")).getD 0,
              (pyFloat ((lineParts text).getD (c+2) "")).getD 0,
              some ((pyFloat ((lineParts text).getD (c+3) "")).getD 0)⟩ := by
      intro c hc
      rw [flatGroup_eval pyFloat (lineParts text) true c
        (htok c (by omega)) (htok (c+1) (by omega)) (htok (c+2) (by omega))
        (fun _ => htok (c+3) (by omega))]
      simp
    rw [parse_line_multi, rawParse_flat_branch text hh hs (Or.inr hlen)]
    have hb : ((lineParts text).length == 20) = true := by rw [hlen]; rfl
    rw [hb]
    rw [flatWalk_eq_of_groups pyFloat (lineParts text) true (List.range 5) 0 ?_]
    · simp only [List.length_range]
      rw [show List.range 5 = [0,1,2,3,4] from rfl]
      simp only [List.map_cons, List.map_nil, List.getD_cons_zero, List.getD_cons_succ]
      norm_num
      rw [hG 0 (by omega), hG 4 (by omega), hG 8 (by omega), hG 12 (by omega),
        hG 16 (by omega)]
      simp only [Option.getD_some, toSample]
      exact ⟨rfl, rfl, rfl, rfl, rfl⟩
    · intro m hm
      simp only [List.length_range] at hm
      apply flatGroup_isSome
      · exact htok _ (by simp; omega)
      · exact htok _ (by simp; omega)
      · exact htok _ (by simp; omega)
      · intro _
        exact htok _ (by simp; omega)

theorem lineParser_flat_csv_witness :
    ((isHeaderLine (pyStrip csv15) = false ∧ hasSensorToken (pyStrip csv15) = false ∧
      (∀ p ∈ lineParts csv15, (pyFloat p).isSome) ∧ (lineParts csv15).length = 15) ∧
     parse_line_multi csv15 =
       [(0, derivedSample (tokQ csv15 0) (tokQ csv15 1) (tokQ csv15 2)),
        (1, derivedSample (tokQ csv15 3) (tokQ csv15 4) (tokQ csv15 5)),
        (2, derivedSample (tokQ csv15 6) (tokQ csv15 7) (tokQ csv15 8)),
        (3, derivedSample (tokQ csv15 9) (tokQ csv15 10) (tokQ csv15 11)),
        (4, derivedSample (tokQ csv15 12) (tokQ csv15 13) (tokQ csv15 14))]) ∧
    ((isHeaderLine (pyStrip csv20) = false ∧ hasSensorToken (pyStrip csv20) = false ∧
      (∀ p ∈ lineParts csv20, (pyFloat p).isSome) ∧ (lineParts csv20).length = 20) ∧
     parse_line_multi csv20 =
       [(0, litSample (tokQ csv20 0) (tokQ csv20 1) (tokQ csv20 2) (tokQ csv20 3)),
        (1, litSample (tokQ csv20 4) (tokQ csv20 5) (tokQ csv20 6) (tokQ csv20 7)),
        (2, litSample (tokQ csv20 8) (tokQ csv20 9) (tokQ csv20 10) (tokQ csv20 11)),
        (3, litSample (tokQ csv20 12) (tokQ csv20 13) (tokQ csv20 14) (tokQ csv20 15)),
        (4, litSample (tokQ csv20 16) (tokQ csv20 17) (tokQ csv20 18) (tokQ csv20 19))]) :=
  ⟨⟨⟨by decide, by decide, by decide, by decide⟩,
    (lineParser_flat_csv csv15 (by decide) (by decide) (by decide)).1 (by decide)⟩,
   ⟨⟨by decide, by decide, by decide, by decide⟩,
    (lineParser_flat_csv csv20 (by decide) (by decide) (by decide)).2 (by decide)⟩⟩

/-- C7: in the flat-CSV branch, a numeric parse failure in the group of
sensor `j` stops the walk there: the parser returns exactly the updates
collected for sensors `0..j-1`, none for the failing or later sensors. -/
theorem lineParser_flat_truncate (text : String) (j : ℕ)
    (hh : isHeaderLine (pyStrip text) = false)
    (hs : hasSensorToken (pyStrip text) = false)
    (hlen : (lineParts text).length = 15 ∨ (lineParts text).length = 20)
    (hj : j < 5)
    (hfail : lineGroup text j = none)
    (hok : ∀ m, m < j → (lineGroup text m).isSome) :
    parse_line_multi text =
      (List.range j).map
        (fun m => (m, toSample ((lineGroup text m).getD ⟨0, 0, 0, none⟩))) := by
  rw [parse_line_multi, rawParse_flat_branch text hh hs hlen]
  have hbeq : ((lineParts text).length == 20) = lineIs20 text := rfl
  rw [hbeq]
  rw [flatWalk_cut pyFloat (lineParts text) (lineIs20 text) (List.range 5) 0 j
    (by simpa using hj) ?_ ?_]
  · rw [List.map_map]
    apply List.map_congr_left
    intro m hm
    rw [List.mem_range] at hm
    have hm5 : m < 5 := by omega
    simp only [Function.comp_apply]
    have hgd : (List.range 5).getD m 0 = m := by
      rw [List.getD_eq_getElem _ _ (by simpa using hm5), List.getElem_range]
    rw [hgd]
    have harg : 0 + (if lineIs20 text = true then 4 else 3) * m = lineGS text * m := by
      rw [lineGS]
      omega
    rw [harg]
    rfl
  · have harg : 0 + (if lineIs20 text = true then 4 else 3) * j = lineGS text * j := by
      rw [lineGS]
      omega
    rw [harg]
    exact hfail
  · intro m hm
    have harg : 0 + (if lineIs20 text = true then 4 else 3) * m = lineGS text * m := by
      rw [lineGS]
      omega
    rw [harg]
    exact hok m hm

theorem lineParser_flat_truncate_witness :
    (isHeaderLine (pyStrip csvBad) = false ∧ hasSensorToken (pyStrip csvBad) = false ∧
     ((lineParts csvBad).length = 15 ∨ (lineParts csvBad).length = 20) ∧
     2 < 5 ∧ lineGroup csvBad 2 = none ∧ (∀ m, m < 2 → (lineGroup csvBad m).isSome)) ∧
    parse_line_multi csvBad =
      (List.range 2).map
        (fun m => (m, toSample ((lineGroup csvBad m).getD ⟨0, 0, 0, none⟩))) :=
  ⟨⟨by decide, by decide, Or.inl (by decide), by decide, by decide, by decide⟩,
   lineParser_flat_truncate csvBad 2 (by decide) (by decide) (Or.inl (by decide))
     (by decide) (by decide) (by decide)⟩

theorem parsePayload_eval (fl : String → Option ℚ) (parts : List String)
    (h0 : (fl (parts.getD 0 "")).isSome)
    (h1 : (fl (parts.getD 1 "")).isSome)
    (h2 : (fl (parts.getD 2 "")).isSome)
    (h3 : 4 ≤ parts.length → (fl (parts.getD 3 "")).isSome) :
    parsePayloadW fl parts =
      some ⟨(fl (parts.getD 0 "")).getD 0, (fl (parts.getD 1 "")).getD 0,
            (fl (parts.getD 2 "")).getD 0,
            if 4 ≤ parts.length then some ((fl (parts.getD 3 "")).getD 0) else none⟩ := by
  obtain ⟨x, hx⟩ := Option.isSome_iff_exists.mp h0
  obtain ⟨y, hy⟩ := Option.isSome_iff_exists.mp h1
  obtain ⟨z, hz⟩ := Option.isSome_iff_exists.mp h2
  rcases Nat.lt_or_ge parts.length 4 with h4 | h4
  · simp only [parsePayloadW, hx, hy, hz, Option.getD_some]
    rw [if_neg (by omega), if_neg (by omega)]
  · obtain ⟨f, hf⟩ := Option.isSome_iff_exists.mp (h3 h4)
    simp only [parsePayloadW, hx, hy, hz, hf, Option.getD_some]
    rw [if_pos h4, if_pos h4]

theorem parsePayload_fail (fl : String → Option ℚ) (parts : List String)
    (h : ¬ ((fl (parts.getD 0 "")).isSome ∧ (fl (parts.getD 1 "")).isSome ∧
        (fl (parts.getD 2 "")).isSome ∧
        (4 ≤ parts.length → (fl (parts.getD 3 "")).isSome))) :
    parsePayloadW fl parts = none := by
  rcases hx : fl (parts.getD 0 "") with _ | x
  · simp only [parsePayloadW, hx]
  · rcases hy : fl (parts.getD 1 "") with _ | y
    · simp only [parsePayloadW, hx, hy]
    · rcases hz : fl (parts.getD 2 "") with _ | z
      · simp only [parsePayloadW, hx, hy, hz]
      · have hnimp : ¬ (4 ≤ parts.length → (fl (parts.getD 3 "")).isSome) := by
          intro himp
          exact h ⟨Option.isSome_iff_exists.mpr ⟨x, hx⟩,
            Option.isSome_iff_exists.mpr ⟨y, hy⟩,
            Option.isSome_iff_exists.mpr ⟨z, hz⟩, himp⟩
        obtain ⟨h4, hf3⟩ := Classical.not_imp.mp hnimp
        have hfnone : fl (parts.getD 3 "") = none :=
          Option.not_isSome_iff_eq_none.mp hf3
        simp only [parsePayloadW, hx, hy, hz, hfnone]
        rw [if_pos h4]

/-- C8: a line matching no earlier format whose comma split has at least
3 tokens yields a single update for sensor 0 built from the first three
tokens, with the force taken from the optional 4th token and otherwise
derived as the Euclidean norm; any parse failure in this branch yields an
empty result for the whole line. -/
theorem lineParser_single_fallback (text : String)
    (hh : isHeaderLine (pyStrip text) = false)
    (hs : hasSensorToken (pyStrip text) = false)
    (h15 : (lineParts text).length ≠ 15)
    (h20 : (lineParts text).length ≠ 20)
    (hge3 : 3 ≤ (lineParts text).length) :
    (((pyFloat ((lineParts text).getD 0 "")).isSome ∧
      (pyFloat ((lineParts text).getD 1 "")).isSome ∧
      (pyFloat ((lineParts text).getD 2 "")).isSome ∧
      (4 ≤ (lineParts text).length → (pyFloat ((lineParts text).getD 3 "")).isSome)) →
      parse_line_multi text =
        [(0, if 4 ≤ (lineParts text).length then
            litSample (tokQ text 0) (tokQ text 1) (tokQ text 2) (tokQ text 3)
          else derivedSample (tokQ text 0) (tokQ text 1) (tokQ text 2))]) ∧
    (¬ ((pyFloat ((lineParts text).getD 0 "")).isSome ∧
        (pyFloat ((lineParts text).getD 1 "")).isSome ∧
        (pyFloat ((lineParts text).getD 2 "")).isSome ∧
        (4 ≤ (lineParts text).length → (pyFloat ((lineParts text).getD 3 "")).isSome)) →
      parse_line_multi text = []) := by
  have hne : (pyStrip text).isEmpty = false := by
    apply lineParts_nonempty_strip
    intro hnil
    rw [hnil] at hge3
    simp at hge3
  have hbranch := rawParse_fallback_branch text hh hs hne
    (by rintro (hc | hc) <;> [exact h15 hc; exact h20 hc])
  constructor
  · rintro ⟨hx, hy, hz, hf4⟩
    rcases Nat.lt_or_ge (lineParts text).length 4 with h4 | h4
    · rw [parse_line_multi, hbranch]
      simp only [singleFallbackW]
      rw [if_pos hge3, parsePayload_eval pyFloat _ hx hy hz hf4,
        if_neg (by omega), if_neg (by omega)]
      simp only [toSample, List.map_cons, List.map_nil]
      rfl
    · rw [parse_line_multi, hbranch]
      simp only [singleFallbackW]
      rw [if_pos hge3, parsePayload_eval pyFloat _ hx hy hz hf4,
        if_pos h4, if_pos h4]
      simp only [toSample, List.map_cons, List.map_nil]
      rfl
  · intro hfail
    rw [parse_line_multi, hbranch]
    simp only [singleFallbackW]
    rw [if_pos hge3, parsePayload_fail pyFloat _ hfail]
    simp

theorem lineParser_single_fallback_witness :
    ((isHeaderLine (pyStrip fb3) = false ∧ hasSensorToken (pyStrip fb3) = false ∧
      (lineParts fb3).length ≠ 15 ∧ (lineParts fb3).length ≠ 20 ∧
      3 ≤ (lineParts fb3).length ∧
      ((pyFloat ((lineParts fb3).getD 0 "")).isSome ∧
       (pyFloat ((lineParts fb3).getD 1 "")).isSome ∧
       (pyFloat ((lineParts fb3).getD 2 "")).isSome ∧
       (4 ≤ (lineParts fb3).length → (pyFloat ((lineParts fb3).getD 3 "")).isSome))) ∧
     parse_line_multi fb3 =
       [(0, if 4 ≤ (lineParts fb3).length then
           litSample (tokQ fb3 0) (tokQ fb3 1) (tokQ fb3 2) (tokQ fb3 3)
         else derivedSample (tokQ fb3 0) (tokQ fb3 1) (tokQ fb3 2))]) ∧
    ((isHeaderLine (pyStrip fbBad) = false ∧ hasSensorToken (pyStrip fbBad) = false ∧
      (lineParts fbBad).length ≠ 15 ∧ (lineParts fbBad).length ≠ 20 ∧
      3 ≤ (lineParts fbBad).length ∧
      ¬ ((pyFloat ((lineParts fbBad).getD 0 "")).isSome ∧
         (pyFloat ((lineParts fbBad).getD 1 "")).isSome ∧
         (pyFloat ((lineParts fbBad).getD 2 "")).isSome ∧
         (4 ≤ (lineParts fbBad).length → (pyFloat ((lineParts fbBad).getD 3 "")).isSome))) ∧
     parse_line_multi fbBad = []) := by
  refine ⟨⟨⟨by decide, by decide, by decide, by decide, by decide, by decide⟩, ?_⟩,
    ⟨⟨by decide, by decide, by decide, by decide, by decide, by decide⟩, ?_⟩⟩
  · exact (lineParser_single_fallback fb3 (by decide) (by decide) (by decide)
      (by decide) (by decide)).1 (by decide)
  · exact (lineParser_single_fallback fbBad (by decide) (by decide) (by decide)
      (by decide) (by decide)).2 (by decide)

theorem pyBind_ok {α β : Type} (a : α) (f : α → PyResult β) :
    (Except.ok a : PyResult α) >>= f = f a := rfl

theorem pyBind_error {α β : Type} (e : String) (f : α → PyResult β) :
    (Except.error e : PyResult α) >>= f = .error e := rfl

theorem pyPure {α : Type} (a : α) : (pure a : PyResult α) = .ok a := rfl

theorem parsePayloadE_ok (parts : List String) :
    parsePayloadE parts = .ok (parsePayloadW pyFloat parts) := by
  rcases hx : pyFloat (parts.getD 0 "") with _ | x
  · simp only [parsePayloadE, parsePayloadW, pyFloatE, hx, pyBind_error, pyTry]
  · rcases hy : pyFloat (parts.getD 1 "") with _ | y
    · simp only [parsePayloadE, parsePayloadW, pyFloatE, hx, hy, pyBind_ok,
        pyBind_error, pyTry]
    · rcases hz : pyFloat (parts.getD 2 "") with _ | z
      · simp only [parsePayloadE, parsePayloadW, pyFloatE, hx, hy, hz, pyBind_ok,
          pyBind_error, pyTry]
      · rcases Nat.lt_or_ge parts.length 4 with h4 | h4
        · simp only [parsePayloadE, parsePayloadW, pyFloatE, hx, hy, hz, pyBind_ok,
            pyPure, pyTry]
          rw [if_neg (by omega), if_neg (by omega)]
        · rcases hf : pyFloat (parts.getD 3 "") with _ | f
          · simp only [parsePayloadE, parsePayloadW, pyFloatE, hx, hy, hz, hf,
              pyBind_ok, pyBind_error, pyPure, pyTry]
            rw [if_pos h4, if_pos h4]
          · simp only [parsePayloadE, parsePayloadW, pyFloatE, hx, hy, hz, hf,
              pyBind_ok, pyBind_error, pyPure, pyTry]
            rw [if_pos h4, if_pos h4]

theorem labeledSegE_ok (seg : String) :
    labeledSegUpdE seg = .ok (labeledSegUpdW pyFloat seg) := by
  simp only [labeledSegUpdE, labeledSegUpdW]
  split
  · rfl
  · rcases hm : matchSensorSeg (pyStrip seg) with _ | ⟨n, payloadRaw⟩
    · simp only [hm]
    · simp only [hm]
      split <;> split
      all_goals
        first
          | rfl
          | (rw [parsePayloadE_ok]
             rcases parsePayloadW pyFloat _ with _ | smp <;> rfl)

theorem collectE_map_ok {α β : Type} (f : β → PyResult (List α)) (g : β → List α)
    (l : List β) (h : ∀ b ∈ l, f b = .ok (g b)) :
    collectE (l.map f) = .ok ((l.map g).flatten) := by
  induction l with
  | nil => rfl
  | cons b rest ih =>
    simp only [List.map_cons, collectE, h b (List.mem_cons_self b rest),
      ih (fun c hc => h c (List.mem_cons_of_mem b hc)), pyBind_ok, pyPure,
      List.flatten_cons]

theorem labeledParseE_ok (line : String) :
    labeledParseE line = .ok (labeledParseW pyFloat line) := by
  rw [labeledParseE, labeledParseW]
  exact collectE_map_ok labeledSegUpdE (labeledSegUpdW pyFloat) _
    (fun seg _ => labeledSegE_ok seg)

theorem flatGroupE_try (parts : List String) (is20 : Bool) (cursor : ℕ) :
    pyTry ((flatGroupE parts is20 cursor).map some) (.ok none) =
      .ok (flatGroupW pyFloat parts is20 cursor) := by
  rcases hx : pyFloat (parts.getD cursor "") with _ | x
  · simp only [flatGroupE, flatGroupW, pyFloatE, hx, pyBind_error, pyTry, Except.map]
  · rcases hy : pyFloat (parts.getD (cursor+1) "") with _ | y
    · simp only [flatGroupE, flatGroupW, pyFloatE, hx, hy, pyBind_ok, pyBind_error,
        pyTry, Except.map]
    · rcases hz : pyFloat (parts.getD (cursor+2) "") with _ | z
      · simp only [flatGroupE, flatGroupW, pyFloatE, hx, hy, hz, pyBind_ok,
          pyBind_error, pyTry, Except.map]
      · cases is20 with
        | false =>
          simp only [flatGroupE, flatGroupW, pyFloatE, hx, hy, hz, pyBind_ok,
            pyPure, pyTry, Except.map, Bool.false_eq_true, if_false]
        | true =>
          rcases hf : pyFloat (parts.getD (cursor+3) "") with _ | f
          · simp only [flatGroupE, flatGroupW, pyFloatE, hx, hy, hz, hf, pyBind_ok,
              pyBind_error, pyPure, pyTry, Except.map, if_true]
          · simp only [flatGroupE, flatGroupW, pyFloatE, hx, hy, hz, hf, pyBind_ok,
              pyBind_error, pyPure, pyTry, Except.map, if_true]

theorem flatWalkE_ok (parts : List String) (is20 : Bool) :
    ∀ (idxs : List ℕ) (cursor : ℕ),
      flatWalkE parts is20 idxs cursor =
        .ok (flatWalkW pyFloat parts is20 idxs cursor) := by
  intro idxs
  induction idxs with
  | nil => intro cursor; rfl
  | cons i rest ih =>
    intro cursor
    rw [flatWalkE, flatWalkW, flatGroupE_try]
    rcases flatGroupW pyFloat parts is20 cursor with _ | smp
    · rfl
    · rw [ih]
      rfl

theorem singleFallbackE_ok (parts : List String) :
    singleFallbackE parts = .ok (singleFallbackW pyFloat parts) := by
  simp only [singleFallbackE, singleFallbackW]
  split
  · rw [parsePayloadE_ok]
    rcases parsePayloadW pyFloat _ with _ | smp <;> rfl
  · rfl

theorem parse_line_multi_E_ok (text : String) :
    parse_line_multi_E text = .ok (rawParse text) := by
  rw [rawParse]
  simp only [parse_line_multi_E, rawParseWith]
  split
  · rfl
  · split
    · rfl
    · split
      · exact labeledParseE_ok _
      · split
        · exact flatWalkE_ok _ _ _ _
        · exact singleFallbackE_ok _

theorem parsePayloadW_total (parts : List String) :
    parsePayloadW pyFloat parts = none ∨
    parsePayloadW pyFloat parts = parsePayloadW pyFloatTotal parts := by
  rcases hx : pyFloat (parts.getD 0 "") with _ | x
  · left
    simp only [parsePayloadW, hx]
  · rcases hy : pyFloat (parts.getD 1 "") with _ | y
    · left
      simp only [parsePayloadW, hx, hy]
    · rcases hz : pyFloat (parts.getD 2 "") with _ | z
      · left
        simp only [parsePayloadW, hx, hy, hz]
      · rcases Nat.lt_or_ge parts.length 4 with h4 | h4
        · right
          simp only [parsePayloadW, hx, hy, hz, pyFloatTotal, Option.getD_some]
          rw [if_neg (by omega), if_neg (by omega)]
        · rcases hf : pyFloat (parts.getD 3 "") with _ | f
          · left
            simp only [parsePayloadW, hx, hy, hz, hf]
            rw [if_pos h4]
          · right
            simp only [parsePayloadW, hx, hy, hz, hf, pyFloatTotal, Option.getD_some]

theorem payloadList_sub (parts : List String) (idx : ℕ) :
    (match parsePayloadW pyFloat parts with
      | some smp => [(idx, smp)]
      | none => ([] : List (ℕ × RawSample))).Sublist
    (match parsePayloadW pyFloatTotal parts with
      | some smp => [(idx, smp)]
      | none => []) := by
  rcases parsePayloadW_total parts with hc | hc
  · rw [hc]
    exact List.nil_sublist _
  · rw [hc]

theorem labeledSeg_sub (seg : String) :
    (labeledSegUpdW pyFloat seg).Sublist (labeledSegUpdW pyFloatTotal seg) := by
  simp only [labeledSegUpdW]
  split
  · exact List.Sublist.refl _
  · rcases hm : matchSensorSeg (pyStrip seg) with _ | ⟨n, payloadRaw⟩
    · simp only [hm]
      exact List.Sublist.refl _
    · simp only [hm]
      split <;> split
      all_goals first
        | exact payloadList_sub _ _
        | exact List.Sublist.refl _

theorem labeledParse_sub (line : String) :
    (labeledParseW pyFloat line).Sublist (labeledParseW pyFloatTotal line) := by
  rw [labeledParseW, labeledParseW]
  induction strSplit line (fun c => c = ';' || c = '|') with
  | nil => simp
  | cons a rest ih =>
    simp only [List.map_cons, List.flatten_cons]
    exact (labeledSeg_sub a).append ih

theorem flatGroup_total (parts : List String) (is20 : Bool) (cursor : ℕ)
    (g : RawSample) (h : flatGroupW pyFloat parts is20 cursor = some g) :
    flatGroupW pyFloatTotal parts is20 cursor = some g := by
  rcases hx : pyFloat (parts.getD cursor "") with _ | x
  · rw [flatGroupW] at h
    rw [hx] at h
    simp at h
  · rcases hy : pyFloat (parts.getD (cursor+1) "") with _ | y
    · rw [flatGroupW] at h
      rw [hx, hy] at h
      simp at h
    · rcases hz : pyFloat (parts.getD (cursor+2) "") with _ | z
      · rw [flatGroupW] at h
        rw [hx, hy, hz] at h
        simp at h
      · cases is20 with
        | false =>
          rw [flatGroupW] at h
          rw [hx, hy, hz] at h
          simp only [Bool.false_eq_true, if_false, Option.some_inj] at h
          simp only [flatGroupW, pyFloatTotal, hx, hy, hz, Option.getD_some,
            Bool.false_eq_true, if_false]
          rw [h]
        | true =>
          rcases hf : pyFloat (parts.getD (cursor+3) "") with _ | f
          · rw [flatGroupW] at h
            rw [hx, hy, hz] at h
            simp only [if_true] at h
            rw [hf] at h
            simp at h
          · rw [flatGroupW] at h
            rw [hx, hy, hz] at h
            simp only [if_true] at h
            rw [hf] at h
            simp only [Option.some_inj] at h
            simp only [flatGroupW, pyFloatTotal, hx, hy, hz, hf, Option.getD_some,
              if_true]
            rw [h]

theorem flatWalk_sub (parts : List String) (is20 : Bool) :
    ∀ (idxs : List ℕ) (cursor : ℕ),
      (flatWalkW pyFloat parts is20 idxs cursor).Sublist
        (flatWalkW pyFloatTotal parts is20 idxs cursor) := by
  intro idxs
  induction idxs with
  | nil => intro cursor; exact List.Sublist.refl _
  | cons i rest ih =>
    intro cursor
    rw [flatWalkW, flatWalkW]
    rcases hg : flatGroupW pyFloat parts is20 cursor with _ | g
    · simp only [hg]
      exact List.nil_sublist _
    · rw [flatGroup_total parts is20 cursor g hg]
      exact (ih _).cons₂ _

theorem singleFallback_sub (parts : List String) :
    (singleFallbackW pyFloat parts).Sublist (singleFallbackW pyFloatTotal parts) := by
  simp only [singleFallbackW]
  split
  all_goals first
    | exact payloadList_sub _ _
    | exact List.Sublist.refl _

theorem rawParse_sub (text : String) :
    (rawParse text).Sublist (rawParseWith pyFloatTotal text) := by
  rw [rawParse]
  simp only [rawParseWith]
  split
  · exact List.Sublist.refl _
  · split
    · exact List.Sublist.refl _
    · split
      · exact labeledParse_sub _
      · split
        · exact flatWalk_sub _ _ _ _
        · exact singleFallback_sub _

/-- C4: the parser never raises to its caller — with Python's exception
flow modelled explicitly, every input string returns `Except.ok` of the
`Option`-level parse — and parse failures only ever shrink the returned
list: the actual result is a sublist of what the same line would produce
were every `float()` call to succeed. -/
theorem lineParser_total_no_raise :
    (∀ text : String, parse_line_multi_E text = Except.ok (rawParse text)) ∧
    (∀ text : String, (rawParse text).Sublist (rawParseWith pyFloatTotal text)) :=
  ⟨parse_line_multi_E_ok, rawParse_sub⟩

theorem workerLoop_head (ls : List (ℚ × String)) :
    ∀ (last t : ℚ) (us : List (ℕ × RawSample)),
      (workerLoop last ls).head? = some (t, us) → last + UPDATE_INTERVAL ≤ t := by
  induction ls with
  | nil => intro last t us h; simp [workerLoop] at h
  | cons p rest ih =>
    intro last t us h
    rcases p with ⟨now, raw⟩
    rw [workerLoop] at h
    split at h
    · exact ih last t us h
    · split at h
      · exact ih last t us h
      · split at h
        · rw [List.head?_cons, Option.some_inj] at h
          have hnow : now - last ≥ UPDATE_INTERVAL := by assumption
          have hteq : now = t := congrArg Prod.fst h
          rw [← hteq]
          linarith
        · exact ih last t us h

theorem workerLoop_chain (ls : List (ℚ × String)) :
    ∀ last : ℚ,
      ((workerLoop last ls).map Prod.fst).Chain'
        (fun a b => a + UPDATE_INTERVAL ≤ b) := by
  induction ls with
  | nil => intro last; simp [workerLoop]
  | cons p rest ih =>
    intro last
    rcases p with ⟨now, raw⟩
    rw [workerLoop]
    split
    · exact ih last
    · split
      · exact ih last
      · split
        · rw [List.map_cons, List.chain'_cons']
          refine ⟨?_, ih now⟩
          intro y hy
          rcases hh : (workerLoop now rest).head? with _ | ⟨t, us⟩
          · rw [List.head?_map, hh] at hy
            simp at hy
          · rw [List.head?_map, hh] at hy
            simp at hy
            rw [← hy]
            exact workerLoop_head rest now t us hh
        · exact ih last

theorem workerLoop_sublist (ls : List (ℚ × String)) :
    ∀ last : ℚ,
      (workerLoop last ls).Sublist (ls.map (fun p => (p.1, rawParse (pyStrip p.2)))) := by
  induction ls with
  | nil => intro last; simp [workerLoop]
  | cons p rest ih =>
    intro last
    rcases p with ⟨now, raw⟩
    rw [workerLoop]
    split
    · exact (ih last).trans (List.sublist_cons_self _ _)
    · split
      · exact (ih last).trans (List.sublist_cons_self _ _)
      · split
        · exact (ih now).cons₂ _
        · exact (ih last).trans (List.sublist_cons_self _ _)

/-- C3: the rate limiter forwards a line's updates exactly when
`now - lastEmitTime ≥ I` with `I = 0.03` (and then sets
`lastEmitTime = now`); consecutive forwarded timestamps are always at
least `I` apart; and every forwarded batch is one attempted line's own
`(timestamp, updates)` pair, in order — a dropped line's updates are
never queued, merged, or delivered later. -/
theorem rateLimiter_min_gap (ls : List (ℚ × String))
    (hmono : ls.Chain' (fun a b => a.1 < b.1)) :
    ((workerLoop 0 ls).map Prod.fst).Chain' (fun a b => a + UPDATE_INTERVAL ≤ b) ∧
    (∀ (last now : ℚ) (raw : String) (rest : List (ℚ × String)),
      workerLoop last ((now, raw) :: rest) =
        if (pyStrip raw).isEmpty then workerLoop last rest
        else if (rawParse (pyStrip raw)).isEmpty then workerLoop last rest
        else if now - last ≥ UPDATE_INTERVAL then
          (now, rawParse (pyStrip raw)) :: workerLoop now rest
        else workerLoop last rest) ∧
    (workerLoop 0 ls).Sublist (ls.map (fun p => (p.1, rawParse (pyStrip p.2)))) :=
  ⟨workerLoop_chain ls 0, fun _ _ _ _ => rfl, workerLoop_sublist ls 0⟩

theorem rateLimiter_min_gap_witness :
    rlLines.Chain' (fun a b => a.1 < b.1) ∧
    (((workerLoop 0 rlLines).map Prod.fst).Chain'
        (fun a b => a + UPDATE_INTERVAL ≤ b) ∧
      (∀ (last now : ℚ) (raw : String) (rest : List (ℚ × String)),
        workerLoop last ((now, raw) :: rest) =
          if (pyStrip raw).isEmpty then workerLoop last rest
          else if (rawParse (pyStrip raw)).isEmpty then workerLoop last rest
          else if now - last ≥ UPDATE_INTERVAL then
            (now, rawParse (pyStrip raw)) :: workerLoop now rest
          else workerLoop last rest) ∧
      (workerLoop 0 rlLines).Sublist
        (rlLines.map (fun p => (p.1, rawParse (pyStrip p.2))))) :=
  ⟨by norm_num [rlLines, List.chain'_cons], rateLimiter_min_gap rlLines
    (by norm_num [rlLines, List.chain'_cons])⟩

/-- C9: `stop` never raises (even when `close()` itself raises, the
`except: pass` swallows it), a second `stop` — or any later `_cleanup` —
is a no-op on an already-stopped worker, the handle reference is cleared
by the first `stop`, and the device `close()` is called exactly once when
a handle was present and never otherwise (hence at most once across any
number of `stop`s). -/
theorem streamReader_stop_idempotent (s : WorkerState) :
    stopE s = Except.ok (stopPure s) ∧
    stopE (stopPure s) = Except.ok (stopPure s) ∧
    stopPure (stopPure s) = stopPure s ∧
    cleanupE (stopPure s) = Except.ok (stopPure s) ∧
    (stopPure s).serial = none ∧
    (stopPure s).closeCalls = s.closeCalls + (if s.serial.isSome then 1 else 0) := by
  rcases s with ⟨r, hopt, c⟩
  rcases hopt with _ | ⟨h⟩
  · refine ⟨rfl, rfl, rfl, rfl, rfl, rfl⟩
  · cases hraise : h.closeRaises
    · refine ⟨?_, rfl, rfl, rfl, rfl, rfl⟩
      simp [stopE, cleanupE, stopPure, pyTry, closeSerial, hraise]
    · refine ⟨?_, rfl, rfl, rfl, rfl, rfl⟩
      simp [stopE, cleanupE, stopPure, pyTry, closeSerial, hraise]

end SensorVis